import Mathlib

/-!
Verification of the turf-booking application core logic.

The embedding models, in Lean, the decision logic of the repository:
  * the time-string parsing and 7-hour cancellation-eligibility check of
    `canCancelBooking` (src/src/pages/MyBookings.tsx, lines 75-104),
  * the cancel-request guard `handleCancelRequest` (MyBookings.tsx, lines 152-166),
  * the cancel transaction `handleCancelConfirm` (MyBookings.tsx, lines 168-236),
  * the booking creation `handleBooking` with its end-time slot arithmetic
    (part_002, lines 233-320),
  * the admin aggregation `fetchStats` (part_002, lines 740-751).

Instants are modelled as integer milliseconds since the epoch, with the
runtime timezone taken as UTC: a parsed booking-date string denotes the
instant of its midnight, and `Date.prototype.setHours(h, m, 0, 0)` on such a
midnight value yields midnight + h*3600000 + m*60000 (JavaScript does not
clamp out-of-range hour values; it rolls them over, which is exactly the
arithmetic below).  The floating-point division `msDiff / 3600000` of the
source is modelled as exact rational division: every millisecond count in
range is exactly representable as a double and the comparison against 7 at
this magnitude is unaffected by rounding.
-/

/-- JavaScript `parseInt` restricted to the all-digit capture groups produced
by the time regexes: the decimal value of a digit string. -/
def parseIntDec (s : List Char) : Nat :=
  s.foldl (fun a c => a * 10 + (c.toNat - '0'.toNat)) 0

/-- `String.padStart(2, "0")` applied to the decimal rendering of a number,
as used for the end-time hour in part_002, line 267. -/
def pad2 (n : Nat) : String :=
  if n < 10 then "0" ++ toString n else toString n

/-- The 12-hour to 24-hour conversion, written identically at
MyBookings.tsx lines 88-89 and part_002 lines 259-260:
`if (period === "PM" && hour !== 12) hour += 12; if (period === "AM" && hour === 12) hour = 0;`
(the two `if`s act in sequence on a mutable `hour`; the second can only fire
when the first did not, since `period` cannot be both strings). -/
def to24Hour (hour : Nat) (period : String) : Nat :=
  let h1 := if period = "PM" ∧ hour ≠ 12 then hour + 12 else hour
  if period = "AM" ∧ h1 = 12 then 0 else h1

/-- Captures of the MyBookings.tsx time regex
`/(\d+):(\d+)(?::(\d+))?\s*([AP]M)?/i`: hour digits, minute digits,
optional seconds digits, optional (raw, case-preserved) AM/PM letters. -/
structure TimeCapture where
  hourStr : List Char
  minuteStr : List Char
  secondsStr : Option (List Char)
  periodStr : Option (List Char)
deriving DecidableEq, Repr

/-- One attempt of the regex `/(\d+):(\d+)(?::(\d+))?\s*([AP]M)?/i` at a fixed
start position.  The greedy `\d+` groups take maximal digit runs (backtracking
them cannot help: the shortened run would leave a digit where `:` or the
always-succeeding optional tail is required, or the tail already matches), the
optional seconds group takes `:` plus a maximal digit run when present, `\s*`
takes a maximal whitespace run, and the optional period group takes two
letters `[AaPp][Mm]` when present. -/
def timeMatchAt (l : List Char) : Option TimeCapture :=
  let (h, r1) := l.span Char.isDigit
  if h.isEmpty then none else
  match r1 with
  | ':' :: r2 =>
    let (m, r3) := r2.span Char.isDigit
    if m.isEmpty then none else
    let secRest : Option (List Char) × List Char :=
      match r3 with
      | ':' :: r3b =>
        let (s, r4) := r3b.span Char.isDigit
        if s.isEmpty then (none, r3) else (some s, r4)
      | _ => (none, r3)
    let r5 := secRest.2.dropWhile Char.isWhitespace
    let per : Option (List Char) :=
      match r5 with
      | a :: b :: _ =>
        if (a = 'A' ∨ a = 'a' ∨ a = 'P' ∨ a = 'p') ∧ (b = 'M' ∨ b = 'm')
        then some [a, b] else none
      | _ => none
    some ⟨h, m, secRest.1, per⟩
  | _ => none

/-- `String.prototype.match` with the (non-anchored) time regex: JavaScript
tries the pattern at each position left to right and returns the first
successful attempt. -/
def timeSearch : List Char → Option TimeCapture
  | [] => none
  | c :: rest =>
    match timeMatchAt (c :: rest) with
    | some cap => some cap
    | none => timeSearch rest

/-- A booking row as loaded by MyBookings.tsx / the admin dashboard.
`booking_date` is the instant (ms) denoted by `new Date(booking.booking_date)`,
i.e. midnight of the booking date. -/
structure Booking where
  id : String
  turf_id : String
  user_id : String
  booking_date : Int
  start_time : String
  end_time : String
  total_price : ℚ
  status : String
deriving DecidableEq, Repr

/-- `periodStr?.toUpperCase() || ''` (MyBookings.tsx line 86). -/
def normPeriod (per : Option (List Char)) : String :=
  ((per.map (fun p => p.map Char.toUpper)).map List.asString).getD ""

/-- The booking start instant composed by `canCancelBooking`:
`bookingDate.setHours(hour, parseInt(minuteStr), 0, 0)` on the midnight
instant of the booking date (MyBookings.tsx lines 87-94). -/
def bookingStartMs (b : Booking) (cap : TimeCapture) : Int :=
  b.booking_date
    + (to24Hour (parseIntDec cap.hourStr) (normPeriod cap.periodStr) : Int) * 3600000
    + (parseIntDec cap.minuteStr : Int) * 60000

/-- `(bookingDate.getTime() - now.getTime()) / (1000 * 60 * 60)`
(MyBookings.tsx line 97), as an exact rational. -/
def hoursDiff (startMs nowMs : Int) : ℚ :=
  ((startMs - nowMs : Int) : ℚ) / (1000 * 60 * 60)

/-- `canCancelBooking` (MyBookings.tsx lines 75-104): parse the start time
with the time regex; on no match return false; otherwise convert to 24-hour,
compose the start instant and return `timeDiff >= 7`.  The surrounding
`try/catch` (which also returns false) is unreachable in this model since
every step is total.  Note the function never inspects `booking.status`. -/
def canCancelBooking (b : Booking) (nowMs : Int) : Bool :=
  match timeSearch b.start_time.toList with
  | none => false
  | some cap => decide (7 ≤ hoursDiff (bookingStartMs b cap) nowMs)

/-- The visibility condition of the Cancel Booking button
(MyBookings.tsx line 326): `booking.status !== 'cancelled' && canCancelBooking(booking)`. -/
def cancelButtonVisible (b : Booking) (nowMs : Int) : Bool :=
  b.status ≠ "cancelled" && canCancelBooking b nowMs

/-- `handleCancelRequest` (MyBookings.tsx lines 152-166): look the id up in
the loaded list; if found and not cancellable, toast and stop (result
`none`); otherwise set the pending-cancel id (result `some bookingId`). -/
def handleCancelRequest (bookings : List Booking) (nowMs : Int)
    (bookingId : String) : Option String :=
  match bookings.find? (fun b => b.id = bookingId) with
  | some b => if ¬ canCancelBooking b nowMs then none else some bookingId
  | none => some bookingId

/-- One attempt of the part_002 regex `/(\d+):(\d+)\s([AP]M)/` (line 257, no
`i` flag: upper-case letters only, exactly one whitespace character) at a
fixed start position; the captures are hour digits, minute digits and the
period string. -/
def slotMatchAt (l : List Char) : Option (List Char × List Char × String) :=
  let (h, r1) := l.span Char.isDigit
  if h.isEmpty then none else
  match r1 with
  | ':' :: r2 =>
    let (m, r3) := r2.span Char.isDigit
    if m.isEmpty then none else
    match r3 with
    | w :: p :: q :: _ =>
      if w.isWhitespace ∧ q = 'M' ∧ (p = 'A' ∨ p = 'P')
      then some (h, m, if p = 'A' then "AM" else "PM") else none
    | _ => none
  | _ => none

/-- `startTime.match(/(\d+):(\d+)\s([AP]M)/)`: first successful attempt,
positions tried left to right. -/
def slotSearch : List Char → Option (List Char × List Char × String)
  | [] => none
  | c :: rest =>
    match slotMatchAt (c :: rest) with
    | some cap => some cap
    | none => slotSearch rest

/-- The end-time hour/period arithmetic of `handleBooking`
(part_002, lines 258-265):
`let endHour = hour + 1; const endPeriod = endHour >= 12 ? "PM" : "AM";
if (endHour > 12) endHour -= 12; if (endHour === 0) endHour = 12;`
applied to the 24-hour value of the parsed start hour. -/
def endHourPeriod (hour : Nat) : Nat × String :=
  let endHour := hour + 1
  let endPeriod := if endHour ≥ 12 then "PM" else "AM"
  let endHour := if endHour > 12 then endHour - 12 else endHour
  let endHour := if endHour = 0 then 12 else endHour
  (endHour, endPeriod)

/-- The derived end-time string (part_002, line 267):
``${endHour.toString().padStart(2, '0')}:${minuteStr} ${endPeriod}``. -/
def deriveEndTime (hourStr minuteStr : List Char) (period : String) : String :=
  let hp := endHourPeriod (to24Hour (parseIntDec hourStr) period)
  pad2 hp.1 ++ ":" ++ minuteStr.asString ++ " " ++ hp.2

/-- The row inserted into `bookings` by `handleBooking`
(part_002, lines 270-280); `booking_date` here is the literal
`date.toISOString().split('T')[0]` string. -/
structure BookingInsert where
  turf_id : String
  user_id : String
  booking_date : String
  start_time : String
  end_time : String
  total_price : ℚ
  status : String
deriving DecidableEq, Repr

/-- Outcome of a notification dispatch call: the invoke resolves with a
success envelope, resolves with an error envelope, or rejects (throws). -/
inductive NotifyOutcome
  | ok
  | fail
  | throws
deriving DecidableEq, Repr

/-- `handleBooking` (part_002, lines 233-320), after the authentication and
completeness guards: parse the selected slot (an unmatched slot makes
`.slice(1)` throw on `null`, landing in the outer catch with nothing
persisted), derive the end time, insert the row with
`total_price: turf.price, status: 'confirmed'`, then attempt the
confirmation email inside its own `try/catch` whose catch only logs, so
every notification outcome leaves the flow identical.  Returns the backend
rows after the handler and whether the success path (toast + redirect) ran. -/
def handleBooking (db : List BookingInsert) (turfId userId : String)
    (turfPrice : ℚ) (dateStr slot : String) (notify : NotifyOutcome) :
    List BookingInsert × Bool :=
  match slotSearch slot.toList with
  | none => (db, false)
  | some (hourStr, minuteStr, period) =>
    let row : BookingInsert :=
      { turf_id := turfId
        user_id := userId
        booking_date := dateStr
        start_time := slot
        end_time := deriveEndTime hourStr minuteStr period
        total_price := turfPrice
        status := "confirmed" }
    let db1 := db ++ [row]
    match notify with
    | .throws => (db1, true)
    | .fail => (db1, true)
    | .ok => (db1, true)

/-- `handleCancelConfirm` (MyBookings.tsx lines 168-236): fetch the booking
(`.single()` rejects when absent, reaching the catch with nothing changed),
persist `status: 'cancelled'`, then `await` the cancellation notification
inside the same `try`: a rejecting invoke jumps to the catch, which only
logs and toasts — the already-persisted update is never rolled back, only
the local-state update and success toast are skipped.  Returns the backend
rows after the handler and whether the success path ran. -/
def handleCancelConfirm (db : List Booking) (confirmCancelId : String)
    (notify : NotifyOutcome) : List Booking × Bool :=
  match db.find? (fun b => b.id = confirmCancelId) with
  | none => (db, false)
  | some _ =>
    let db1 := db.map fun b =>
      if b.id = confirmCancelId then { b with status := "cancelled" } else b
    match notify with
    | .throws => (db1, false)
    | .fail => (db1, true)
    | .ok => (db1, true)

/-- `totalRevenue` (part_002, lines 741-743):
`enrichedBookings.reduce((sum, booking) => booking.status !== 'cancelled' ? sum + (booking.total_price || 0) : sum, 0)`.
`total_price` is a number field here, so `|| 0` only renormalises a zero
price to zero and is dropped. -/
def totalRevenue (bs : List Booking) : ℚ :=
  bs.foldl (fun sum b => if b.status ≠ "cancelled" then sum + b.total_price else sum) 0

/-- `activeBookings` (part_002, lines 746-748):
`enrichedBookings.filter(b => b.status !== 'cancelled' && new Date(b.booking_date) >= new Date()).length`.
`new Date(b.booking_date)` is the midnight instant of the booking date and
`new Date()` the current instant. -/
def activeBookings (bs : List Booking) (nowMs : Int) : Nat :=
  (bs.filter fun b => b.status ≠ "cancelled" ∧ nowMs ≤ b.booking_date).length

/-- The calendar day (days since the epoch, floor) containing an instant. -/
def dayOf (ms : Int) : Int := ms.fdiv 86400000

/-- Modelled from the claim wording, for comparison with `activeBookings`:
the number of bookings whose status is not cancelled and whose booking DATE
is on or after TODAY, at day granularity. -/
def specActiveCount (bs : List Booking) (nowMs : Int) : Nat :=
  (bs.filter fun b => b.status ≠ "cancelled" ∧ dayOf nowMs ≤ dayOf b.booking_date).length

/-- The minutes-of-day denoted by a 12-hour clock reading, used to state
that one time is sixty minutes after another. -/
def minutesOfDay (hour12 : Nat) (minute : Nat) (period : String) : Nat :=
  to24Hour hour12 period * 60 + minute

section Helpers

/-- `List.span` is the takeWhile/dropWhile split (accumulator form). -/
lemma span_loop_eq (p : α → Bool) (l acc : List α) :
    List.span.loop p l acc = (acc.reverse ++ l.takeWhile p, l.dropWhile p) := by
  induction l generalizing acc with
  | nil => simp [List.span.loop, List.takeWhile, List.dropWhile]
  | cons a t ih =>
    cases h : p a <;>
      simp [List.span.loop, h, List.takeWhile_cons, List.dropWhile_cons, ih]

/-- `List.span` is the takeWhile/dropWhile split. -/
lemma span_eq (p : α → Bool) (l : List α) :
    l.span p = (l.takeWhile p, l.dropWhile p) := by
  simp [List.span, span_loop_eq]

/-- The floating 7-hour comparison is the integer millisecond comparison. -/
lemma hoursDiff_ge_seven_iff (startMs nowMs : Int) :
    7 ≤ hoursDiff startMs nowMs ↔ nowMs + 25200000 ≤ startMs := by
  unfold hoursDiff
  rw [le_div_iff₀ (by norm_num : (0 : ℚ) < 1000 * 60 * 60)]
  rw [show (7 : ℚ) * (1000 * 60 * 60) = ((25200000 : Int) : ℚ) by norm_num]
  rw [Int.cast_le]
  omega

/-- `canCancelBooking` with the hour comparison phrased over integers. -/
lemma canCancelBooking_eq (b : Booking) (nowMs : Int) :
    canCancelBooking b nowMs =
      match timeSearch b.start_time.toList with
      | none => false
      | some cap => decide (nowMs + 25200000 ≤ bookingStartMs b cap) := by
  unfold canCancelBooking
  cases timeSearch b.start_time.toList with
  | none => rfl
  | some cap => simp [hoursDiff_ge_seven_iff]

end Helpers

/-- C3: for a 12-hour reading with hour in [1,12] and an AM or PM suffix, the
24-hour conversion is: PM and hour ≠ 12 gives hour + 12, AM and hour = 12
gives 0, otherwise the hour unchanged; the result lies in [0,23]. -/
theorem to24Hour_spec (h : Nat) (per : String)
    (h1 : 1 ≤ h) (h2 : h ≤ 12) (hper : per = "AM" ∨ per = "PM") :
    to24Hour h per =
      (if per = "PM" ∧ h ≠ 12 then h + 12
       else if per = "AM" ∧ h = 12 then 0 else h) ∧
    to24Hour h per ≤ 23 := by
  rcases hper with rfl | rfl <;> interval_cases h <;> simp [to24Hour]

theorem to24Hour_spec_witness :
    to24Hour 12 "AM" = (if ("AM" : String) = "PM" ∧ 12 ≠ 12 then 12 + 12
       else if ("AM" : String) = "AM" ∧ 12 = 12 then 0 else 12) ∧
    to24Hour 12 "AM" ≤ 23 :=
  to24Hour_spec 12 "AM" (by decide) (by decide) (Or.inl rfl)

/-- C4: a start-time string on which the time regex finds no match makes
`canCancelBooking` return false (fail closed); no exception escapes since
the match-is-null branch returns false before anything can throw. -/
theorem canCancelBooking_malformed_false (b : Booking) (nowMs : Int)
    (hm : timeSearch b.start_time.toList = none) :
    canCancelBooking b nowMs = false := by
  unfold canCancelBooking
  rw [hm]

theorem canCancelBooking_malformed_false_witness :
    canCancelBooking
      ⟨"b1", "t1", "u1", 0, "noon", "1 pm", 500, "confirmed"⟩ 0 = false :=
  canCancelBooking_malformed_false _ 0 (by decide)

/-- C1 counterexample: `canCancelBooking` never inspects `booking.status`,
so for a booking already cancelled whose start lies 9 hours ahead of now it
returns true, while the claim requires false for a cancelled booking. -/
theorem canCancelBooking_true_on_cancelled :
    canCancelBooking
      ⟨"b1", "t1", "u1", 0, "09:00 AM", "10:00 AM", 500, "cancelled"⟩ 0 = true ∧
    (Booking.status
      ⟨"b1", "t1", "u1", 0, "09:00 AM", "10:00 AM", 500, "cancelled"⟩) = "cancelled" := by
  constructor
  · rw [canCancelBooking_eq]; decide
  · rfl

/-- C1 amended: the status conjunct is enforced by the caller, not by
`canCancelBooking` itself: the rendered cancel affordance
`booking.status !== 'cancelled' && canCancelBooking(booking)` is true exactly
when the status is not cancelled and the parsed booking start lies at least
7 hours (25200000 ms, the exact floating boundary) after now. -/
theorem cancelButtonVisible_iff (b : Booking) (nowMs : Int) (cap : TimeCapture)
    (hparse : timeSearch b.start_time.toList = some cap) :
    cancelButtonVisible b nowMs = true ↔
      (b.status ≠ "cancelled" ∧ nowMs + 25200000 ≤ bookingStartMs b cap) := by
  unfold cancelButtonVisible
  rw [canCancelBooking_eq, hparse]
  simp

theorem cancelButtonVisible_iff_witness :
    cancelButtonVisible
        ⟨"b1", "t1", "u1", 0, "09:00 AM", "10:00 AM", 500, "confirmed"⟩ 0 = true ↔
      ((Booking.status
          ⟨"b1", "t1", "u1", 0, "09:00 AM", "10:00 AM", 500, "confirmed"⟩) ≠ "cancelled" ∧
        (0 : Int) + 25200000 ≤
          bookingStartMs
            ⟨"b1", "t1", "u1", 0, "09:00 AM", "10:00 AM", 500, "confirmed"⟩
            ⟨['0', '9'], ['0', '0'], none, some ['A', 'M']⟩) :=
  cancelButtonVisible_iff _ 0 _ (by decide)

/-- C2 counterexample: for the start time 11:00 PM the derived end time is
the string "12:00 PM" (noon), whose denotation 720 minutes differs from
start plus sixty minutes (11:00 PM + 60 min = 12:00 AM, 0 minutes of day):
the claimed wrap 11:xx PM to 12:xx AM does not hold on the code. -/
theorem deriveEndTime_11PM_not_plus_sixty :
    deriveEndTime ['1', '1'] ['0', '0'] "PM" = "12:00 PM" ∧
    endHourPeriod (to24Hour 11 "PM") = (12, "PM") ∧
    minutesOfDay 12 0 "PM" ≠ (minutesOfDay 11 0 "PM" + 60) % 1440 := by
  refine ⟨by decide, by decide, by decide⟩

/-- C2 amended: for every start hour in [1,12] with an AM or PM suffix other
than 11 PM, the derived end hour/period denote exactly one hour after the
start (so with the minute digits reused verbatim in the end string, the end
time is the start time plus sixty minutes, 12:xx PM wrapping to 1:xx PM);
for 11:xx PM the code emits 12:xx PM instead of 12:xx AM. -/
theorem endHourPeriod_plus_sixty (h m : Nat) (per : String)
    (h1 : 1 ≤ h) (h2 : h ≤ 12) (hper : per = "AM" ∨ per = "PM")
    (hno : ¬(h = 11 ∧ per = "PM")) :
    1 ≤ (endHourPeriod (to24Hour h per)).1 ∧
    (endHourPeriod (to24Hour h per)).1 ≤ 12 ∧
    to24Hour (endHourPeriod (to24Hour h per)).1 (endHourPeriod (to24Hour h per)).2 =
      to24Hour h per + 1 ∧
    minutesOfDay (endHourPeriod (to24Hour h per)).1 m (endHourPeriod (to24Hour h per)).2 =
      minutesOfDay h m per + 60 := by
  have key :
      1 ≤ (endHourPeriod (to24Hour h per)).1 ∧
      (endHourPeriod (to24Hour h per)).1 ≤ 12 ∧
      to24Hour (endHourPeriod (to24Hour h per)).1 (endHourPeriod (to24Hour h per)).2 =
        to24Hour h per + 1 := by
    rcases hper with rfl | rfl <;> interval_cases h <;> simp_all <;> decide
  refine ⟨key.1, key.2.1, key.2.2, ?_⟩
  unfold minutesOfDay
  rw [key.2.2]
  ring

theorem endHourPeriod_plus_sixty_witness :
    1 ≤ (endHourPeriod (to24Hour 12 "PM")).1 ∧
    (endHourPeriod (to24Hour 12 "PM")).1 ≤ 12 ∧
    to24Hour (endHourPeriod (to24Hour 12 "PM")).1 (endHourPeriod (to24Hour 12 "PM")).2 =
      to24Hour 12 "PM" + 1 ∧
    minutesOfDay (endHourPeriod (to24Hour 12 "PM")).1 30 (endHourPeriod (to24Hour 12 "PM")).2 =
      minutesOfDay 12 30 "PM" + 60 :=
  endHourPeriod_plus_sixty 12 30 "PM" (by decide) (by decide) (Or.inr rfl) (by decide)

/-- C5: whenever the selected slot parses, `handleBooking` persists exactly
one new row whose end time is the slot-arithmetic derivation from the start,
whose total price is the turf price at booking time, and whose status is
confirmed — for every notification outcome. -/
theorem handleBooking_persists_confirmed
    (db : List BookingInsert) (turfId userId : String) (turfPrice : ℚ)
    (dateStr slot : String) (notify : NotifyOutcome)
    (hourStr minuteStr : List Char) (period : String)
    (hparse : slotSearch slot.toList = some (hourStr, minuteStr, period)) :
    (handleBooking db turfId userId turfPrice dateStr slot notify).1 =
      db ++ [{ turf_id := turfId
               user_id := userId
               booking_date := dateStr
               start_time := slot
               end_time := deriveEndTime hourStr minuteStr period
               total_price := turfPrice
               status := "confirmed" }] := by
  unfold handleBooking
  rw [hparse]
  cases notify <;> rfl

theorem handleBooking_persists_confirmed_witness :
    (handleBooking [] "t1" "u1" 1200 "2024-06-10" "09:00 AM" NotifyOutcome.ok).1 =
      [] ++ [{ turf_id := "t1"
               user_id := "u1"
               booking_date := "2024-06-10"
               start_time := "09:00 AM"
               end_time := deriveEndTime ['0', '9'] ['0', '0'] "AM"
               total_price := 1200
               status := "confirmed" }] :=
  handleBooking_persists_confirmed [] "t1" "u1" 1200 "2024-06-10" "09:00 AM"
    NotifyOutcome.ok ['0', '9'] ['0', '0'] "AM" (by decide)

/-- C9: when the requested id is not found among the loaded bookings,
`handleCancelRequest` skips the eligibility check and sets the pending-cancel
id, opening the confirmation dialog for the unknown id. -/
theorem handleCancelRequest_unknown_id (bookings : List Booking)
    (nowMs : Int) (bookingId : String)
    (habsent : bookings.find? (fun b => b.id = bookingId) = none) :
    handleCancelRequest bookings nowMs bookingId = some bookingId := by
  unfold handleCancelRequest
  rw [habsent]

theorem handleCancelRequest_unknown_id_witness :
    handleCancelRequest [] 0 "ghost-id" = some "ghost-id" :=
  handleCancelRequest_unknown_id [] 0 "ghost-id" rfl

/-- C6: the notification outcome never affects the persisted result of
either transaction: the rows after `handleBooking` and after
`handleCancelConfirm` are identical whether the dispatch succeeds, resolves
with an error envelope, or throws; every row `handleBooking` adds has status
confirmed, and after `handleCancelConfirm` the targeted booking (when
present) has status cancelled — no failure rolls the write back. -/
theorem notification_failure_preserves_outcome
    (db : List BookingInsert) (turfId userId : String) (turfPrice : ℚ)
    (dateStr slot : String) (db2 : List Booking) (cid : String)
    (notify : NotifyOutcome) :
    (handleBooking db turfId userId turfPrice dateStr slot notify).1 =
      (handleBooking db turfId userId turfPrice dateStr slot NotifyOutcome.ok).1 ∧
    (∀ r ∈ (handleBooking db turfId userId turfPrice dateStr slot notify).1,
      r ∉ db → r.status = "confirmed") ∧
    (handleCancelConfirm db2 cid notify).1 =
      (handleCancelConfirm db2 cid NotifyOutcome.ok).1 ∧
    (∀ b ∈ (handleCancelConfirm db2 cid notify).1,
      b.id = cid → b.status = "cancelled") := by
  refine ⟨?_, ?_, ?_, ?_⟩
  · unfold handleBooking
    cases slotSearch slot.toList with
    | none => cases notify <;> rfl
    | some cap => obtain ⟨hs, ms, per⟩ := cap; cases notify <;> rfl
  · intro r hr hnew
    unfold handleBooking at hr
    cases hp : slotSearch slot.toList with
    | none => rw [hp] at hr; exact absurd hr hnew
    | some cap =>
      obtain ⟨hs, ms, per⟩ := cap
      rw [hp] at hr
      cases notify <;>
        simp only [List.mem_append, List.mem_singleton] at hr <;>
        rcases hr with hr | hr <;>
        first
          | exact absurd hr hnew
          | (subst hr; rfl)
  · unfold handleCancelConfirm
    cases db2.find? (fun b => b.id = cid) with
    | none => cases notify <;> rfl
    | some b0 => cases notify <;> rfl
  · intro b hb hbid
    unfold handleCancelConfirm at hb
    cases hf : db2.find? (fun x => x.id = cid) with
    | none =>
      rw [hf] at hb
      rw [List.find?_eq_none] at hf
      exact absurd (by simpa using hf b hb) (by simp [hbid])
    | some b0 =>
      rw [hf] at hb
      have hb2 : b ∈ db2.map (fun x =>
          if x.id = cid then { x with status := "cancelled" } else x) := by
        cases notify <;> simpa using hb
      obtain ⟨a, _, ha⟩ := List.mem_map.mp hb2
      by_cases hid : a.id = cid
      · rw [if_pos hid] at ha; rw [← ha]
      · rw [if_neg hid] at ha; rw [← ha] at hbid; exact absurd hbid hid

/-- The revenue fold with an arbitrary accumulator. -/
lemma totalRevenue_foldl (bs : List Booking) (q : ℚ) :
    bs.foldl (fun sum b => if b.status ≠ "cancelled" then sum + b.total_price else sum) q =
      q + ((bs.filter fun b => b.status ≠ "cancelled").map Booking.total_price).sum := by
  induction bs generalizing q with
  | nil => simp
  | cons b t ih =>
    simp only [List.foldl_cons, List.filter_cons]
    by_cases hb : b.status = "cancelled"
    · rw [if_neg (by simp [hb]), if_neg (by simp [hb])]
      exact ih q
    · rw [if_pos (by simp [hb]), if_pos (by simp [hb])]
      rw [ih (q + b.total_price), List.map_cons, List.sum_cons]
      ring

/-- C7: the admin total-revenue aggregate is exactly the sum of the
total_price values over the bookings whose status is not cancelled;
cancelled bookings contribute nothing. -/
theorem totalRevenue_eq_sum_noncancelled (bs : List Booking) :
    totalRevenue bs =
      ((bs.filter fun b => b.status ≠ "cancelled").map Booking.total_price).sum := by
  unfold totalRevenue
  rw [totalRevenue_foldl]
  ring

/-- C8 counterexample: `fetchStats` compares the midnight instant of the
booking date against the current instant, so a non-cancelled booking dated
TODAY is not counted once the clock has passed midnight (here: noon of the
same day), while the claim (date on or after today) counts it. -/
theorem activeBookings_excludes_today :
    activeBookings
        [⟨"b1", "t1", "u1", 0, "09:00 AM", "10:00 AM", 500, "confirmed"⟩] 43200000 = 0 ∧
    specActiveCount
        [⟨"b1", "t1", "u1", 0, "09:00 AM", "10:00 AM", 500, "confirmed"⟩] 43200000 = 1 := by
  refine ⟨by decide, by decide⟩

/-- C8 amended: the active-booking count is the number of bookings whose
status is not cancelled AND whose booking-date midnight instant is at or
after the current instant (so a booking dated today is only counted at
exactly midnight); this instant-based count never exceeds the
date-granularity count of the claim, since a midnight at or after now lies
in a day at or after today. -/
theorem activeBookings_amended (bs : List Booking) (nowMs : Int) :
    activeBookings bs nowMs =
      bs.countP (fun b => b.status ≠ "cancelled" ∧ nowMs ≤ b.booking_date) ∧
    activeBookings bs nowMs ≤ specActiveCount bs nowMs := by
  constructor
  · unfold activeBookings
    rw [List.countP_eq_length_filter]
  · unfold activeBookings specActiveCount
    rw [← List.countP_eq_length_filter, ← List.countP_eq_length_filter]
    apply List.countP_mono_left
    intro b _ hb
    simp only [decide_eq_true_eq] at hb ⊢
    refine ⟨hb.1, ?_⟩
    unfold dayOf
    rw [Int.fdiv_eq_ediv _ (by norm_num), Int.fdiv_eq_ediv _ (by norm_num)]
    exact Int.ediv_le_ediv (by norm_num) hb.2

/-- takeWhile over a block satisfying the predicate followed by a failing
element returns exactly the block. -/
lemma takeWhile_all_append (p : α → Bool) (l1 : List α) (x : α) (l2 : List α)
    (h1 : ∀ c ∈ l1, p c) (hx : p x = false) :
    (l1 ++ x :: l2).takeWhile p = l1 := by
  induction l1 with
  | nil => simp [List.takeWhile_cons, hx]
  | cons a t ih =>
    rw [List.cons_append, List.takeWhile_cons_of_pos (h1 a (by simp))]
    rw [ih (fun c hc => h1 c (by simp [hc]))]

/-- dropWhile over a block satisfying the predicate followed by a failing
element returns the failing element and the rest. -/
lemma dropWhile_all_append (p : α → Bool) (l1 : List α) (x : α) (l2 : List α)
    (h1 : ∀ c ∈ l1, p c) (hx : p x = false) :
    (l1 ++ x :: l2).dropWhile p = x :: l2 := by
  induction l1 with
  | nil => simp [List.dropWhile_cons, hx]
  | cons a t ih =>
    rw [List.cons_append, List.dropWhile_cons_of_pos (h1 a (by simp))]
    exact ih (fun c hc => h1 c (by simp [hc]))

/-- A 24-hour style string (digits, colon, digits, no suffix) matches the
time regex at the first position, capturing the hour and minute digits with
no seconds and no period. -/
lemma timeMatchAt_24h (hs ms : List Char)
    (hh : hs ≠ []) (hm : ms ≠ [])
    (hhd : ∀ c ∈ hs, c.isDigit) (hmd : ∀ c ∈ ms, c.isDigit) :
    timeMatchAt (hs ++ ':' :: ms) = some ⟨hs, ms, none, none⟩ := by
  have hspan1 : (hs ++ ':' :: ms).span Char.isDigit = (hs, ':' :: ms) := by
    rw [span_eq, takeWhile_all_append _ _ _ _ hhd (by decide),
      dropWhile_all_append _ _ _ _ hhd (by decide)]
  have hspan2 : ms.span Char.isDigit = (ms, []) := by
    rw [span_eq, List.takeWhile_eq_self_iff.mpr hmd,
      List.dropWhile_eq_nil_iff.mpr hmd]
  unfold timeMatchAt
  rw [hspan1]
  simp only [List.isEmpty_eq_false.mpr hh]
  simp only [hspan2, List.isEmpty_eq_false.mpr hm]
  cases ms with
  | nil => exact absurd rfl hm
  | cons d u => simp

/-- A successful attempt at the first position is the search result. -/
lemma timeSearch_of_matchAt (l : List Char) (cap : TimeCapture)
    (hne : l ≠ []) (h : timeMatchAt l = some cap) :
    timeSearch l = some cap := by
  cases l with
  | nil => exact absurd rfl hne
  | cons c rest => unfold timeSearch; rw [h]

/-- An empty period string leaves the hour unchanged. -/
lemma to24Hour_no_suffix (h : Nat) : to24Hour h "" = h := by
  simp [to24Hour]

/-- C10: a start time of the 24-hour form digits:digits with no AM/PM suffix
is not treated as malformed: the optional period group of the regex lets it
match, the hour digits are kept as-is as a 24-hour value, and
`canCancelBooking` evaluates the 7-hour window on it rather than returning
false outright. -/
theorem canCancelBooking_24h_format (hs ms : List Char) (b : Booking)
    (nowMs : Int) (hh : hs ≠ []) (hm : ms ≠ [])
    (hhd : ∀ c ∈ hs, c.isDigit) (hmd : ∀ c ∈ ms, c.isDigit)
    (hst : b.start_time = (hs ++ ':' :: ms).asString) :
    timeSearch b.start_time.toList = some ⟨hs, ms, none, none⟩ ∧
    canCancelBooking b nowMs =
      decide (7 ≤ hoursDiff
        (b.booking_date + (parseIntDec hs : Int) * 3600000
          + (parseIntDec ms : Int) * 60000) nowMs) := by
  have hsearch : timeSearch b.start_time.toList = some ⟨hs, ms, none, none⟩ := by
    rw [hst, List.toList_asString]
    exact timeSearch_of_matchAt _ _ (by simp [hh]) (timeMatchAt_24h hs ms hh hm hhd hmd)
  refine ⟨hsearch, ?_⟩
  unfold canCancelBooking
  rw [hsearch]
  unfold bookingStartMs normPeriod
  simp [to24Hour_no_suffix]

theorem canCancelBooking_24h_format_witness :
    timeSearch (Booking.start_time
        ⟨"b1", "t1", "u1", 0, "14:30", "15:30", 500, "confirmed"⟩).toList =
      some ⟨['1', '4'], ['3', '0'], none, none⟩ ∧
    canCancelBooking
        ⟨"b1", "t1", "u1", 0, "14:30", "15:30", 500, "confirmed"⟩ 0 =
      decide (7 ≤ hoursDiff
        ((Booking.booking_date ⟨"b1", "t1", "u1", 0, "14:30", "15:30", 500, "confirmed"⟩)
          + (parseIntDec ['1', '4'] : Int) * 3600000
          + (parseIntDec ['3', '0'] : Int) * 60000) 0) :=
  canCancelBooking_24h_format ['1', '4'] ['3', '0'] _ 0
    (by decide) (by decide) (by decide) (by decide) (by decide)
